import Mathlib

/-
Verification development for the AddressBook contact manager (src/main.py).

The Python source is embedded shallowly:
* strings are Lean `String` values (Python `len` counts code points, as does
  `String.data.length`);
* exceptions become `Except PyExc` results; an operation that mutates an object
  in place becomes a function returning the new value, and an exception raised
  mid-operation corresponds to an `Except.error` result with the receiver
  unchanged (in main.py every mutation happens only after all validation, so
  this is faithful);
* `datetime.date` values become `Date` records (proleptic Gregorian calendar,
  like CPython's `datetime`), compared through their `toOrdinal` day number,
  which agrees with CPython's `date.toordinal` (0001-01-01 has ordinal 1);
* the Python dict inside `AddressBook` (a `UserDict`) becomes an association
  list with unique keys; CPython dicts preserve insertion order and writing to
  an existing key keeps its position, which `setKey` reproduces.
-/

namespace AB

/-- Python exception values that the embedded code can raise.  `valueError`
carries the message string; the other three stand for `FileNotFoundError`,
`PermissionError` and `pickle.UnpicklingError`, which main.py never constructs
itself but which the environment (file system, pickle) can raise. -/
inductive PyExc where
  | valueError (msg : String)
  | fileNotFoundError
  | permissionError
  | unpicklingError
deriving DecidableEq, Repr

/-- Character-level model of CPython `str.isdigit`.  CPython classifies a
character as a digit iff its Unicode `Numeric_Type` is `Digit` or `Decimal`.
This table covers all of ASCII exactly (code points 48-57) plus the non-ASCII
digit ranges used in this development: the superscripts U+00B2, U+00B3, U+00B9,
Arabic-Indic U+0660-U+0669, Extended Arabic-Indic U+06F0-U+06F9, Devanagari
U+0966-U+096F and fullwidth U+FF10-U+FF19.  Outside these ranges the model
returns `false`; CPython accepts further Unicode digit ranges, so the model
under-approximates `isdigit` there, but every character this file evaluates it
on lies inside the table. -/
def pyCharIsDigit (c : Char) : Bool :=
  (48 ≤ c.toNat && c.toNat ≤ 57)
  || c.toNat = 178 || c.toNat = 179 || c.toNat = 185
  || (1632 ≤ c.toNat && c.toNat ≤ 1641)
  || (1776 ≤ c.toNat && c.toNat ≤ 1785)
  || (2406 ≤ c.toNat && c.toNat ≤ 2415)
  || (65296 ≤ c.toNat && c.toNat ≤ 65305)

/-- ASCII decimal digit `0`-`9` (code points 48-57). -/
def isAsciiDigit (c : Char) : Bool :=
  48 ≤ c.toNat && c.toNat ≤ 57

/-- CPython `str.isdigit`: nonempty and every character a digit character. -/
def pyIsdigit (s : String) : Bool :=
  !s.data.isEmpty && s.data.all pyCharIsDigit

/-- Numeric value of a digit token, accumulator form (Python `int`). -/
def natOfDigitsAux (acc : Nat) : List Char → Nat
  | [] => acc
  | c :: cs => natOfDigitsAux (10 * acc + (c.toNat - 48)) cs

/-- Numeric value of a list of ASCII digit characters, as Python `int` reads
a pure-digit token. -/
def natOfDigits (l : List Char) : Nat :=
  natOfDigitsAux 0 l

/-- Splitting a character list at each `.` (code point 46), as Python
`str.split` and the literal `\.` separators of the strptime format do for
dot-free tokens.  `splitDots []` is `[[]]`, matching `"".split(".") == [""]`. -/
def splitDots : List Char → List (List Char)
  | [] => [[]]
  | c :: cs =>
    if c.toNat = 46 then [] :: splitDots cs
    else
      match splitDots cs with
      | [] => [[c]]
      | t :: ts => (c :: t) :: ts

/-- Gregorian leap-year rule, as `calendar.isleap` / `datetime`. -/
def isLeap (y : Nat) : Bool :=
  y % 4 = 0 && (y % 100 ≠ 0 || y % 400 = 0)

/-- Length of a month in the proleptic Gregorian calendar. -/
def daysInMonth (y m : Nat) : Nat :=
  if m = 2 then (if isLeap y then 29 else 28)
  else if m = 4 || m = 6 || m = 9 || m = 11 then 30
  else 31

/-- A calendar date, the embedding of `datetime.date`. -/
structure Date where
  year : Nat
  month : Nat
  day : Nat
deriving DecidableEq, Repr

/-- Days in all years strictly before year `y` (proleptic Gregorian). -/
def daysBeforeYear (y : Nat) : Nat :=
  365 * (y - 1) + (y - 1) / 4 - (y - 1) / 100 + (y - 1) / 400

/-- Days in the months of year `y` strictly before month `m`. -/
def daysBeforeMonth (y m : Nat) : Nat :=
  (if 2 ≤ m then 31 else 0) + (if 3 ≤ m then (if isLeap y then 29 else 28) else 0)
  + (if 4 ≤ m then 31 else 0) + (if 5 ≤ m then 30 else 0)
  + (if 6 ≤ m then 31 else 0) + (if 7 ≤ m then 30 else 0)
  + (if 8 ≤ m then 31 else 0) + (if 9 ≤ m then 31 else 0)
  + (if 10 ≤ m then 30 else 0) + (if 11 ≤ m then 31 else 0)
  + (if 12 ≤ m then 30 else 0)

/-- The day number of a date, equal to CPython `date.toordinal`
(0001-01-01 has ordinal 1). -/
def toOrdinal (d : Date) : Nat :=
  daysBeforeYear d.year + daysBeforeMonth d.year d.month + d.day

/-- CPython `date.weekday`: Monday = 0 .. Sunday = 6.  Ordinal 1
(0001-01-01) is a Monday. -/
def weekday (d : Date) : Nat :=
  (toOrdinal d - 1) % 7

/-- The calendar day after `d`. -/
def nextDay (d : Date) : Date :=
  if d.day < daysInMonth d.year d.month then Date.mk d.year d.month (d.day + 1)
  else if d.month < 12 then Date.mk d.year (d.month + 1) 1
  else Date.mk (d.year + 1) 1 1

/-- `d + timedelta(days = n)` for a nonnegative number of days. -/
def addDays (d : Date) : Nat → Date
  | 0 => d
  | n + 1 => nextDay (addDays d n)

/-- Left-pad a number to two digits, as strftime `%d` / `%m`. -/
def pad2 (n : Nat) : String :=
  if n < 10 then "0" ++ toString n else toString n

/-- Left-pad a number to four digits; strftime `%Y` output for the 4-digit
years this program produces (platform padding differences below year 1000 do
not matter here). -/
def pad4 (n : Nat) : String :=
  if n < 10 then "000" ++ toString n
  else if n < 100 then "00" ++ toString n
  else if n < 1000 then "0" ++ toString n
  else toString n

/-- `date.strftime("%d.%m.%Y")`. -/
def formatDMY (d : Date) : String :=
  pad2 d.day ++ "." ++ pad2 d.month ++ "." ++ pad4 d.year

/-- The day token of CPython `_strptime` for `%d`: the regular expression
`3[01]|[12]\d|0[1-9]|[1-9]`, written over code points (48 = `0`, 49 = `1`,
50 = `2`, 51 = `3`, 57 = `9`), required to match the whole dot-free token.
The model restricts `\d` to ASCII; CPython's `\d` also matches non-ASCII
Unicode decimal digits, which no string evaluated here contains. -/
def dayTok : List Char → Bool
  | [c] => 49 ≤ c.toNat && c.toNat ≤ 57
  | [c1, c2] =>
    (c1.toNat = 51 && (c2.toNat = 48 || c2.toNat = 49))
    || ((c1.toNat = 49 || c1.toNat = 50) && (48 ≤ c2.toNat && c2.toNat ≤ 57))
    || (c1.toNat = 48 && (49 ≤ c2.toNat && c2.toNat ≤ 57))
  | _ => false

/-- The month token of CPython `_strptime` for `%m`: `1[0-2]|0[1-9]|[1-9]`,
over code points, whole-token match, ASCII restriction as in `dayTok`. -/
def monthTok : List Char → Bool
  | [c] => 49 ≤ c.toNat && c.toNat ≤ 57
  | [c1, c2] =>
    (c1.toNat = 49 && (48 ≤ c2.toNat && c2.toNat ≤ 50))
    || (c1.toNat = 48 && (49 ≤ c2.toNat && c2.toNat ≤ 57))
  | _ => false

/-- The year token of CPython `_strptime` for `%Y`: exactly four digits
(`\d\d\d\d`), ASCII restriction as in `dayTok`. -/
def yearTok : List Char → Bool
  | [c1, c2, c3, c4] =>
    isAsciiDigit c1 && isAsciiDigit c2 && isAsciiDigit c3 && isAsciiDigit c4
  | _ => false

/-- `datetime.strptime(s, "%d.%m.%Y")`, returning the parsed date or `none`
for a `ValueError`.  CPython compiles the format to the regular expression
`DAY\.MONTH\.YEAR` (anchored at both ends) and then builds
`datetime(year, month, day)`, which additionally requires `1 <= year` and the
day to exist in the month.  Because the three tokens are digit-only, the full
regular expression matches `s` iff splitting `s` at every `.` yields exactly
three parts matched by the respective token expressions. -/
def strptimeDMY (s : String) : Option Date :=
  match splitDots s.data with
  | [dt, mt, yt] =>
    if dayTok dt && monthTok mt && yearTok yt then
      let d := natOfDigits dt
      let m := natOfDigits mt
      let y := natOfDigits yt
      if 1 ≤ y && d ≤ daysInMonth y m then some (Date.mk y m d) else none
    else none
  | _ => none

/-- `Phone.__init__` (main.py lines 16-20): raises unless the value is all
digit characters (`str.isdigit`) of length exactly 10; otherwise stores the
string verbatim. -/
def Phone.init (value : String) : Except PyExc String :=
  if !(pyIsdigit value) || value.data.length ≠ 10 then
    Except.error (PyExc.valueError "Phone number must be 10 digits.")
  else Except.ok value

/-- The validation rule `Phone.__init__` enforces, as a predicate. -/
def phoneValid (s : String) : Bool :=
  pyIsdigit s && s.data.length = 10

/-- `Birthday.__init__` (main.py lines 22-28): parses with
`strptime(value, "%d.%m.%Y")`, re-raising a parse failure as the fixed
`ValueError`, and stores the original string. -/
def Birthday.init (value : String) : Except PyExc String :=
  match strptimeDMY value with
  | some _ => Except.ok value
  | none => Except.error (PyExc.valueError "Invalid date format. Please use DD.MM.YYYY.")

/-- A contact record (main.py class `Record`): a name (stored by the
unvalidated `Name` field), the ordered phone list (each element the `value`
of a constructed `Phone`) and the optional birthday (the `value` of a
constructed `Birthday`). -/
structure Record where
  name : String
  phones : List String
  birthday : Option String
deriving DecidableEq, Repr

/-- `Record.__init__`: given name, no phones, no birthday. -/
def Record.init (name : String) : Record :=
  Record.mk name [] none

/-- `Record.set_birthday`: validates, then replaces the stored birthday. -/
def Record.set_birthday (r : Record) (birthday : String) : Except PyExc Record :=
  (Birthday.init birthday).map (fun v => Record.mk r.name r.phones (some v))

/-- `Record.add_phone`: validates, then appends. -/
def Record.add_phone (r : Record) (phone_value : String) : Except PyExc Record :=
  (Phone.init phone_value).map (fun v => Record.mk r.name (r.phones ++ [v]) r.birthday)

/-- `Record.delete_phone`: keeps exactly the phones different from the
argument; never fails. -/
def Record.delete_phone (r : Record) (phone_value : String) : Record :=
  Record.mk r.name (r.phones.filter (fun q => q ≠ phone_value)) r.birthday

/-- The loop of `Record.update_phone` over the phone list: at the first
element equal to `old_phone` a new `Phone` is constructed (which may raise)
and written at that position; if the list is exhausted the `ValueError`
`"Phone number ... not found."` is raised. -/
def updatePhoneAux (old_phone new_phone : String) : List String → Except PyExc (List String)
  | [] => Except.error (PyExc.valueError ("Phone number " ++ old_phone ++ " not found."))
  | p :: ps =>
    if p = old_phone then (Phone.init new_phone).map (fun np => np :: ps)
    else (updatePhoneAux old_phone new_phone ps).map (fun l => p :: l)

/-- `Record.update_phone` (main.py lines 46-51). -/
def Record.update_phone (r : Record) (old_phone new_phone : String) : Except PyExc Record :=
  (updatePhoneAux old_phone new_phone r.phones).map
    (fun l => Record.mk r.name l r.birthday)

/-- The `AddressBook` dict: association list of name/record pairs, keys
unique, in insertion order. -/
abbrev AddressBook := List (String × Record)

/-- Writing `data[n] = r` into a dict: replaces the value at the first (only)
occurrence of the key, keeping its position, or appends a new entry. -/
def setKey : AddressBook → String → Record → AddressBook
  | [], n, r => [(n, r)]
  | (k, v) :: t, n, r =>
    if k = n then (k, r) :: t else (k, v) :: setKey t n r

/-- Removing a key from the dict, as `dict.pop(n, None)` does to the store. -/
def removeKey : AddressBook → String → AddressBook
  | [], _ => []
  | (k, v) :: t, n => if k = n then t else (k, v) :: removeKey t n

/-- `AddressBook.add_record`: `self.data[record.name.value] = record`. -/
def AddressBook.add_record (b : AddressBook) (record : Record) : AddressBook :=
  setKey b record.name record

/-- `AddressBook.search`: `self.data.get(name)`. -/
def AddressBook.search (b : AddressBook) (name : String) : Option Record :=
  match b with
  | [] => none
  | (k, v) :: t => if k = name then some v else AddressBook.search t name

/-- `AddressBook.remove_record`: `self.data.pop(name, None)` — the popped
record (if any) together with the remaining store. -/
def AddressBook.remove_record (b : AddressBook) (name : String) :
    Option Record × AddressBook :=
  (AddressBook.search b name, removeKey b name)

/-- `record.birthday` list of keys of the book. -/
def keys (b : AddressBook) : List String :=
  b.map Prod.fst

/-- Number of entries of the book stored under key `n`. -/
def countKey : AddressBook → String → Nat
  | [], _ => 0
  | (k, _) :: t, n => (if k = n then 1 else 0) + countKey t n

/-- `datetime.replace(year = y)`: keeps month and day, revalidating them
against the new year (this is where `29.02` of a leap year raises
`ValueError: day is out of range for month` in a non-leap year). -/
def replaceYear (d : Date) (y : Nat) : Except PyExc Date :=
  if d.day ≤ daysInMonth y d.month then Except.ok (Date.mk y d.month d.day)
  else Except.error (PyExc.valueError "day is out of range for month")

/-- The window test of `upcoming_birthdays` (main.py line 74):
`today <= birthday_this_year <= today + timedelta(days=7)`; comparing
`date` values is comparing their ordinals. -/
def inWindow (today anch : Date) : Bool :=
  toOrdinal today ≤ toOrdinal anch && toOrdinal anch ≤ toOrdinal today + 7

/-- The weekend shift and formatting of `upcoming_birthdays` (lines 75-79):
a Saturday or Sunday anchored date moves forward by `7 - weekday` days, then
the (possibly shifted) date is rendered with `strftime("%d.%m.%Y")`. -/
def reportDate (anch : Date) : Date :=
  if 5 ≤ weekday anch then addDays anch (7 - weekday anch) else anch

/-- The loop body of `AddressBook.upcoming_birthdays` over the dict entries
(main.py lines 71-80).  A record without a birthday is skipped; otherwise the
stored string is re-parsed, re-anchored to `today`'s year (which may raise),
tested against the window, and on success the name and the shifted, formatted
date are appended.  A raised `ValueError` aborts the whole call, discarding
entries already collected. -/
def upcomingAux (today : Date) : List (String × Record) → Except PyExc (List (String × String))
  | [] => Except.ok []
  | (n, r) :: t =>
    match r.birthday with
    | none => upcomingAux today t
    | some bs =>
      match strptimeDMY bs with
      | none => Except.error (PyExc.valueError ("time data " ++ bs ++ " does not match format %d.%m.%Y"))
      | some bd =>
        match replaceYear bd today.year with
        | Except.error e => Except.error e
        | Except.ok anch =>
          if inWindow today anch then
            match upcomingAux today t with
            | Except.ok l => Except.ok ((n, formatDMY (reportDate anch)) :: l)
            | Except.error e => Except.error e
          else upcomingAux today t

/-- `AddressBook.upcoming_birthdays` (main.py lines 68-81).  The source reads
`today` from `datetime.now()`; the clock is passed as the `today` argument. -/
def AddressBook.upcoming_birthdays (b : AddressBook) (today : Date) :
    Except PyExc (List (String × String)) :=
  upcomingAux today b

/-- The message `str(error)` the `input_error` wrapper renders. -/
def excMessage : PyExc → String
  | PyExc.valueError m => m
  | PyExc.fileNotFoundError => "file not found"
  | PyExc.permissionError => "permission denied"
  | PyExc.unpicklingError => "unpickling error"

/-- The `birthdays` command handler (main.py lines 180-185) wrapped in
`input_error` (lines 122-128): a `ValueError` escaping `upcoming_birthdays`
becomes the string `"Error: <message>"`; otherwise the matches are rendered
one per line, or the fixed no-matches message. -/
def birthdays (b : AddressBook) (today : Date) : String :=
  match AddressBook.upcoming_birthdays b today with
  | Except.error e => "Error: " ++ excMessage e
  | Except.ok [] => "No upcoming birthdays."
  | Except.ok (x :: xs) =>
    String.intercalate "\n" ((x :: xs).map (fun p => p.1 ++ ": " ++ p.2))

/-- The `add` command handler `add_contact` (main.py lines 130-141) wrapped in
`input_error`: with fewer than two arguments the tuple unpacking raises (the
wrapper renders the error and the book is untouched); with a known name the
phone is appended to the existing record; otherwise a fresh record is created
and inserted.  The result is the rendered message and the resulting book. -/
def add_contact (args : List String) (b : AddressBook) : String × AddressBook :=
  match args with
  | name :: phone :: _ =>
    match AddressBook.search b name with
    | some r =>
      match Record.add_phone r phone with
      | Except.ok r2 => ("Phone added to " ++ name ++ ".", setKey b name r2)
      | Except.error e => ("Error: " ++ excMessage e, b)
    | none =>
      match Record.add_phone (Record.init name) phone with
      | Except.ok r2 => ("Contact " ++ name ++ " created.", AddressBook.add_record b r2)
      | Except.error e => ("Error: " ++ excMessage e, b)
  | _ => ("Error: not enough values to unpack (expected 2, got " ++ toString args.length ++ ")", b)

/-- The state the persistent store can be in when `load_data` runs.  `open`
raises `FileNotFoundError` on an absent file and `PermissionError` on an
unreadable one; `pickle.load` raises `UnpicklingError` on corrupt contents;
otherwise the saved book is returned. -/
inductive StoreState where
  | absent
  | unreadable
  | corrupt
  | saved (b : AddressBook)

/-- The body of the `try` block of `load_data`: `open` followed by
`pickle.load`, as a function of the store state. -/
def readStore : StoreState → Except PyExc AddressBook
  | StoreState.absent => Except.error PyExc.fileNotFoundError
  | StoreState.unreadable => Except.error PyExc.permissionError
  | StoreState.corrupt => Except.error PyExc.unpicklingError
  | StoreState.saved b => Except.ok b

/-- `load_data` (main.py lines 195-200): only `FileNotFoundError` is caught
and turned into a fresh empty `AddressBook`; every other exception
propagates. -/
def load_data (st : StoreState) : Except PyExc AddressBook :=
  match readStore st with
  | Except.error PyExc.fileNotFoundError => Except.ok []
  | other => other

/-- An absent birthday, or one whose stored string parses. -/
def birthdayOk : Option String → Bool
  | none => true
  | some bs => (strptimeDMY bs).isSome

/-- A record whose stored fields all satisfy their validation rules. -/
def validRecord (r : Record) : Bool :=
  r.phones.all phoneValid && birthdayOk r.birthday

/-- Every record of the book is valid. -/
def validBook (b : AddressBook) : Bool :=
  b.all (fun p => validRecord p.2)

/-- A string of ten Arabic-Indic zero digits (U+0660): every character passes
CPython `str.isdigit`, none is an ASCII digit. -/
def tenArabicZeros : String :=
  String.mk (List.replicate 10 (Char.ofNat 1632))

/-- The pattern claim C4 asserts, written from the claim's words: a 2-digit
day, a 2-digit month and a 4-digit year separated by dots, denoting a valid
calendar date (month 1-12, year at least 1, day within the month's length). -/
def specDDMMYYYY (s : String) : Bool :=
  match splitDots s.data with
  | [d, m, y] =>
    d.all isAsciiDigit && d.length = 2
    && m.all isAsciiDigit && m.length = 2
    && y.all isAsciiDigit && y.length = 4
    && 1 ≤ natOfDigits d && 1 ≤ natOfDigits m && natOfDigits m ≤ 12
    && 1 ≤ natOfDigits y
    && natOfDigits d ≤ daysInMonth (natOfDigits y) (natOfDigits m)
  | _ => false

/-- The pattern the code actually accepts, written from the amended claim's
words: day and month tokens of one or two ASCII digits (unpadded forms
allowed) with values 1-31 and 1-12, a year token of exactly four ASCII digits
with value at least 1, and a day that exists in that month of that year. -/
def laxDateOK (s : String) : Bool :=
  match splitDots s.data with
  | [d, m, y] =>
    d.all isAsciiDigit && 1 ≤ d.length && d.length ≤ 2
    && 1 ≤ natOfDigits d && natOfDigits d ≤ 31
    && m.all isAsciiDigit && 1 ≤ m.length && m.length ≤ 2
    && 1 ≤ natOfDigits m && natOfDigits m ≤ 12
    && y.all isAsciiDigit && y.length = 4 && 1 ≤ natOfDigits y
    && natOfDigits d ≤ daysInMonth (natOfDigits y) (natOfDigits m)
  | _ => false

/-- What one loop iteration of `upcoming_birthdays` contributes when no
exception is raised: `none` when the entry is skipped, otherwise the reported
name/date pair.  `upcomingAux` returning `Except.ok` is exactly a `filterMap`
of this function (proved below). -/
def includeEntry (today : Date) (p : String × Record) : Option (String × String) :=
  match p.2.birthday with
  | none => none
  | some bs =>
    match strptimeDMY bs with
    | none => none
    | some bd =>
      match replaceYear bd today.year with
      | Except.error _ => none
      | Except.ok anch =>
        if inWindow today anch then some (p.1, formatDMY (reportDate anch)) else none

/-- `Phone.__init__` as one conditional on the validation predicate. -/
theorem phone_init_eq (s : String) :
    Phone.init s = if phoneValid s then Except.ok s
      else Except.error (PyExc.valueError "Phone number must be 10 digits.") := by
  unfold Phone.init phoneValid
  by_cases h1 : pyIsdigit s = true <;> by_cases h2 : s.data.length = 10 <;>
    simp [h1, h2]

/-- `Phone.__init__` succeeds exactly on the strings its check accepts, and
then stores the input verbatim. -/
theorem phone_init_ok_iff (s t : String) :
    Phone.init s = Except.ok t ↔ (t = s ∧ phoneValid s = true) := by
  rw [phone_init_eq]
  by_cases h : phoneValid s = true
  · simp only [h, if_pos]
    constructor
    · intro he
      exact ⟨(Except.ok.injEq _ _).mp he.symm, trivial⟩
    · intro he
      rw [he.1]
  · simp [h]

/-- `Phone.__init__` fails with the fixed message on every rejected string. -/
theorem phone_init_err (s : String) (h : phoneValid s = false) :
    Phone.init s = Except.error (PyExc.valueError "Phone number must be 10 digits.") := by
  rw [phone_init_eq, h]
  simp

/-- `phoneValid` unfolded to the character level. -/
theorem phoneValid_iff (s : String) :
    phoneValid s = true ↔ (s.data.length = 10 ∧ s.data.all pyCharIsDigit = true) := by
  unfold phoneValid pyIsdigit
  cases hd : s.data
  · simp [hd]
  · simp [hd]
    tauto

/-- Unfolding lemma for the ASCII digit test. -/
theorem isAsciiDigit_eq (c : Char) :
    isAsciiDigit c = (48 ≤ c.toNat && c.toNat ≤ 57) := rfl

/-- Value of a one-character digit token. -/
theorem natOfDigits_one (c : Char) : natOfDigits [c] = c.toNat - 48 := by
  rw [show natOfDigits [c] = 10 * 0 + (c.toNat - 48) from rfl]
  omega

/-- Value of a two-character digit token. -/
theorem natOfDigits_two (c1 c2 : Char) :
    natOfDigits [c1, c2] = 10 * (c1.toNat - 48) + (c2.toNat - 48) := by
  rw [show natOfDigits [c1, c2] = 10 * (10 * 0 + (c1.toNat - 48)) + (c2.toNat - 48) from rfl]
  omega

/-- `Birthday.__init__` succeeds exactly on the strings `strptime` parses, and
then stores the input verbatim. -/
theorem birthday_init_ok_iff (s t : String) :
    Birthday.init s = Except.ok t ↔ (t = s ∧ (strptimeDMY s).isSome = true) := by
  unfold Birthday.init
  cases h : strptimeDMY s <;> simp [eq_comm]

/-- The `%d` token expression accepts exactly the one- or two-digit tokens
with value 1 to 31. -/
theorem dayTok_iff (d : List Char) :
    dayTok d = true ↔
      (d.all isAsciiDigit = true ∧ 1 ≤ d.length ∧ d.length ≤ 2 ∧
       1 ≤ natOfDigits d ∧ natOfDigits d ≤ 31) := by
  match d with
  | [] =>
    rw [show dayTok [] = false from rfl]
    simp
  | [c] =>
    rw [show dayTok [c] = (49 ≤ c.toNat && c.toNat ≤ 57) from rfl, natOfDigits_one]
    simp only [List.all_cons, List.all_nil, Bool.and_true, isAsciiDigit_eq,
      List.length_cons, List.length_nil, Bool.and_eq_true, decide_eq_true_eq]
    omega
  | [c1, c2] =>
    rw [show dayTok [c1, c2] =
        ((c1.toNat = 51 && (c2.toNat = 48 || c2.toNat = 49))
          || ((c1.toNat = 49 || c1.toNat = 50) && (48 ≤ c2.toNat && c2.toNat ≤ 57))
          || (c1.toNat = 48 && (49 ≤ c2.toNat && c2.toNat ≤ 57))) from rfl,
      natOfDigits_two]
    simp only [List.all_cons, List.all_nil, Bool.and_true, isAsciiDigit_eq,
      List.length_cons, List.length_nil, Bool.and_eq_true, Bool.or_eq_true,
      decide_eq_true_eq]
    omega
  | c1 :: c2 :: c3 :: t =>
    rw [show dayTok (c1 :: c2 :: c3 :: t) = false from rfl]
    constructor
    · intro hcon
      exact absurd hcon (by simp)
    · intro hcon
      have h3 := hcon.2.2.1
      simp only [List.length_cons] at h3
      omega

/-- The `%m` token expression accepts exactly the one- or two-digit tokens
with value 1 to 12. -/
theorem monthTok_iff (m : List Char) :
    monthTok m = true ↔
      (m.all isAsciiDigit = true ∧ 1 ≤ m.length ∧ m.length ≤ 2 ∧
       1 ≤ natOfDigits m ∧ natOfDigits m ≤ 12) := by
  match m with
  | [] =>
    rw [show monthTok [] = false from rfl]
    simp
  | [c] =>
    rw [show monthTok [c] = (49 ≤ c.toNat && c.toNat ≤ 57) from rfl, natOfDigits_one]
    simp only [List.all_cons, List.all_nil, Bool.and_true, isAsciiDigit_eq,
      List.length_cons, List.length_nil, Bool.and_eq_true, decide_eq_true_eq]
    omega
  | [c1, c2] =>
    rw [show monthTok [c1, c2] =
        ((c1.toNat = 49 && (48 ≤ c2.toNat && c2.toNat ≤ 50))
          || (c1.toNat = 48 && (49 ≤ c2.toNat && c2.toNat ≤ 57))) from rfl,
      natOfDigits_two]
    simp only [List.all_cons, List.all_nil, Bool.and_true, isAsciiDigit_eq,
      List.length_cons, List.length_nil, Bool.and_eq_true, Bool.or_eq_true,
      decide_eq_true_eq]
    omega
  | c1 :: c2 :: c3 :: t =>
    rw [show monthTok (c1 :: c2 :: c3 :: t) = false from rfl]
    constructor
    · intro hcon
      exact absurd hcon (by simp)
    · intro hcon
      have h3 := hcon.2.2.1
      simp only [List.length_cons] at h3
      omega

/-- The `%Y` token expression accepts exactly the four-digit tokens. -/
theorem yearTok_iff (y : List Char) :
    yearTok y = true ↔ (y.all isAsciiDigit = true ∧ y.length = 4) := by
  match y with
  | [] =>
    rw [show yearTok [] = false from rfl]
    simp
  | [c1] =>
    rw [show yearTok [c1] = false from rfl]
    simp
  | [c1, c2] =>
    rw [show yearTok [c1, c2] = false from rfl]
    simp
  | [c1, c2, c3] =>
    rw [show yearTok [c1, c2, c3] = false from rfl]
    simp
  | [c1, c2, c3, c4] =>
    rw [show yearTok [c1, c2, c3, c4] =
        (isAsciiDigit c1 && isAsciiDigit c2 && isAsciiDigit c3 && isAsciiDigit c4) from rfl]
    simp only [List.all_cons, List.all_nil, Bool.and_true, List.length_cons,
      List.length_nil, Bool.and_eq_true]
    tauto
  | c1 :: c2 :: c3 :: c4 :: c5 :: t =>
    rw [show yearTok (c1 :: c2 :: c3 :: c4 :: c5 :: t) = false from rfl]
    constructor
    · intro hcon
      exact absurd hcon (by simp)
    · intro hcon
      have h4 := hcon.2
      simp only [List.length_cons] at h4
      omega

/-- `strptime` on a string splitting into three dot-parts, as one conditional
expression. -/
theorem strptime_eq (s : String) (a b c : List Char) (h : splitDots s.data = [a, b, c]) :
    strptimeDMY s =
      (if (dayTok a && monthTok b && yearTok c) = true then
        (if (1 ≤ natOfDigits c && natOfDigits a ≤ daysInMonth (natOfDigits c) (natOfDigits b)) = true
         then some (Date.mk (natOfDigits c) (natOfDigits b) (natOfDigits a)) else none)
       else none) := by
  unfold strptimeDMY
  rw [h]

/-- `laxDateOK` on a string splitting into three dot-parts. -/
theorem laxDateOK_eq (s : String) (a b c : List Char) (h : splitDots s.data = [a, b, c]) :
    laxDateOK s =
      (a.all isAsciiDigit && 1 ≤ a.length && a.length ≤ 2
        && 1 ≤ natOfDigits a && natOfDigits a ≤ 31
        && b.all isAsciiDigit && 1 ≤ b.length && b.length ≤ 2
        && 1 ≤ natOfDigits b && natOfDigits b ≤ 12
        && c.all isAsciiDigit && c.length = 4 && 1 ≤ natOfDigits c
        && natOfDigits a ≤ daysInMonth (natOfDigits c) (natOfDigits b)) := by
  unfold laxDateOK
  rw [h]

/-- A two-level conditional producing an `Option` is `some` exactly when both
conditions hold. -/
theorem isSome_dateIf (p q : Bool) (x : Date) :
    (if p = true then (if q = true then some x else none) else (none : Option Date)).isSome
      = (p && q) := by
  cases p
  · simp
  · cases q
    · simp
    · simp

/-- `strptime(s, "%d.%m.%Y")` succeeds exactly on the strings described by
`laxDateOK`: the lax (unpadded day and month allowed) dotted date pattern. -/
theorem strptime_isSome_iff (s : String) :
    (strptimeDMY s).isSome = true ↔ laxDateOK s = true := by
  rcases hsp : splitDots s.data with _ | ⟨a, _ | ⟨b, _ | ⟨c, _ | ⟨dd, l4⟩⟩⟩⟩
  · unfold strptimeDMY laxDateOK
    rw [hsp]
    simp
  · unfold strptimeDMY laxDateOK
    rw [hsp]
    simp
  · unfold strptimeDMY laxDateOK
    rw [hsp]
    simp
  · rw [strptime_eq s a b c hsp, laxDateOK_eq s a b c hsp, isSome_dateIf]
    simp only [Bool.and_eq_true, decide_eq_true_eq, dayTok_iff, monthTok_iff, yearTok_iff]
    tauto
  · unfold strptimeDMY laxDateOK
    rw [hsp]
    simp

/-- Claim C4 counterexample: the code accepts `"1.1.2024"`, which does not
have the form DD.MM.YYYY with a 2-digit day and a 2-digit month, so the claim
"every other string fails" is false as stated. -/
theorem birthday_strict_pattern_cex :
    Birthday.init "1.1.2024" = Except.ok "1.1.2024" ∧
      specDDMMYYYY "1.1.2024" = false := by
  constructor
  · rfl
  · rfl

/-- Claim C4 (amended): `Birthday(s)` succeeds iff `s` splits at dots into a
day token of 1 or 2 ASCII digits with value 1-31, a month token of 1 or 2
ASCII digits with value 1-12 (`strptime`'s `%d` and `%m` accept unpadded
single digits) and a year of exactly 4 ASCII digits with value at least 1,
such that the day exists in that month of that year; every other string fails
with the InvalidDateFormat error.  In particular "29.02.2024" succeeds and
"29.02.2023" fails. -/
theorem birthday_accepts_iff_lax (s : String) :
    (Birthday.init s = Except.ok s ↔ laxDateOK s = true) ∧
      (laxDateOK s = false →
        Birthday.init s =
          Except.error (PyExc.valueError "Invalid date format. Please use DD.MM.YYYY.")) := by
  constructor
  · rw [birthday_init_ok_iff, strptime_isSome_iff]
    simp
  · intro hf
    have hn : strptimeDMY s = none := by
      cases hs : strptimeDMY s with
      | none => rfl
      | some dd =>
        have : (strptimeDMY s).isSome = true := by rw [hs]; rfl
        rw [strptime_isSome_iff] at this
        rw [this] at hf
        exact absurd hf (by simp)
    unfold Birthday.init
    rw [hn]

/-- Witness for the amended claim C4 at the claim's own anchors: the leap-day
string "29.02.2024" is accepted and "29.02.2023" is rejected. -/
theorem birthday_accepts_iff_lax_witness :
    Birthday.init "29.02.2024" = Except.ok "29.02.2024" ∧
      Birthday.init "29.02.2023" =
        Except.error (PyExc.valueError "Invalid date format. Please use DD.MM.YYYY.") :=
  ⟨(birthday_accepts_iff_lax "29.02.2024").1.mpr (by rfl),
   (birthday_accepts_iff_lax "29.02.2023").2 (by rfl)⟩

/-- Claim C3 counterexample: ten Arabic-Indic zero digits pass `str.isdigit`
and have length 10, so `Phone` accepts the string even though it contains no
ASCII decimal digit; the claim "construction fails for every string containing
a non-ASCII-decimal-digit character" is false as stated. -/
theorem phone_ascii_only_cex :
    Phone.init tenArabicZeros = Except.ok tenArabicZeros ∧
      tenArabicZeros.data.all isAsciiDigit = false := by
  constructor
  · rfl
  · rfl

/-- Claim C3 (amended): `Phone(s)` succeeds and stores `s` verbatim iff `s`
has exactly 10 characters and every character is a digit character in the
sense of Python `str.isdigit` (which also accepts non-ASCII Unicode digits
such as U+0660); in particular, for ASCII strings this is exactly "10 ASCII
decimal digits".  Every other string fails with the InvalidPhone error. -/
theorem phone_accepts_iff_pydigits (s : String) :
    (Phone.init s = Except.ok s ↔
      (s.data.length = 10 ∧ s.data.all pyCharIsDigit = true)) ∧
    (¬(s.data.length = 10 ∧ s.data.all pyCharIsDigit = true) →
      Phone.init s = Except.error (PyExc.valueError "Phone number must be 10 digits.")) := by
  constructor
  · rw [phone_init_ok_iff, phoneValid_iff]
    simp
  · intro hbad
    apply phone_init_err
    cases hv : phoneValid s with
    | false => rfl
    | true =>
      rw [phoneValid_iff] at hv
      exact absurd hv hbad

/-- Witness for the amended claim C3: a 3-character string is rejected with
the InvalidPhone error, and a 10-ASCII-digit string is accepted verbatim. -/
theorem phone_accepts_iff_pydigits_witness :
    Phone.init "123" = Except.error (PyExc.valueError "Phone number must be 10 digits.") ∧
      Phone.init "0123456789" = Except.ok "0123456789" :=
  ⟨(phone_accepts_iff_pydigits "123").2 (by decide),
   (phone_accepts_iff_pydigits "0123456789").1.mpr (by decide)⟩

/-- `Phone.__init__` on a valid input returns the input. -/
theorem phone_init_ok (s : String) (h : phoneValid s = true) :
    Phone.init s = Except.ok s := by
  rw [phone_init_eq, h]
  rfl

/-- `Birthday.__init__` on a parseable input returns the input. -/
theorem birthday_init_ok (s : String) (h : (strptimeDMY s).isSome = true) :
    Birthday.init s = Except.ok s := by
  unfold Birthday.init
  cases hm : strptimeDMY s with
  | some d => rfl
  | none => rw [hm] at h; exact absurd h (by simp)

/-- Unfolding lemma for the empty case of the update loop. -/
theorem updatePhoneAux_nil (old new : String) :
    updatePhoneAux old new [] =
      Except.error (PyExc.valueError ("Phone number " ++ old ++ " not found.")) := rfl

/-- Unfolding lemma for the cons case of the update loop. -/
theorem updatePhoneAux_cons (old new p : String) (ps : List String) :
    updatePhoneAux old new (p :: ps) =
      (if p = old then (Phone.init new).map (fun np => np :: ps)
       else (updatePhoneAux old new ps).map (fun l => p :: l)) := rfl

/-- The update loop on a list not containing the old value raises the
not-found error. -/
theorem updateAux_not_found (old new : String) (l : List String) (h : old ∉ l) :
    updatePhoneAux old new l =
      Except.error (PyExc.valueError ("Phone number " ++ old ++ " not found.")) := by
  induction l with
  | nil => rfl
  | cons p ps ih =>
    have hne : ¬(p = old) := by
      intro he
      exact h (by rw [← he]; exact List.mem_cons_self p ps)
    rw [updatePhoneAux_cons, if_neg hne,
      ih (fun hm => h (List.mem_cons_of_mem p hm))]
    rfl

/-- The update loop on a list whose first occurrence of the old value is
after `pre`: the result is the image of constructing the new `Phone`. -/
theorem updateAux_found (old new : String) (pre post : List String) (hpre : old ∉ pre) :
    updatePhoneAux old new (pre ++ old :: post) =
      (Phone.init new).map (fun np => pre ++ np :: post) := by
  induction pre with
  | nil =>
    rw [List.nil_append, updatePhoneAux_cons, if_pos rfl]
    cases Phone.init new
    · rfl
    · rfl
  | cons q qs ih =>
    have hq : ¬(q = old) := by
      intro he
      exact hpre (by rw [← he]; exact List.mem_cons_self q qs)
    rw [List.cons_append, updatePhoneAux_cons, if_neg hq,
      ih (fun hm => hpre (List.mem_cons_of_mem q hm))]
    cases Phone.init new
    · rfl
    · rfl

/-- An `ok` result of the update loop comes from a valid new phone and a
decomposition of the list at the first occurrence of the old value. -/
theorem updateAux_ok_shape (old new : String) (l l2 : List String)
    (h : updatePhoneAux old new l = Except.ok l2) :
    phoneValid new = true ∧
      ∃ pre post, l = pre ++ old :: post ∧ old ∉ pre ∧ l2 = pre ++ new :: post := by
  induction l generalizing l2 with
  | nil =>
    rw [updatePhoneAux_nil] at h
    exact absurd h (by simp)
  | cons p ps ih =>
    rw [updatePhoneAux_cons] at h
    by_cases hp : p = old
    · rw [if_pos hp] at h
      cases hph : Phone.init new with
      | error e =>
        rw [hph] at h
        exact absurd h (by simp [Except.map])
      | ok np =>
        rw [hph] at h
        simp only [Except.map] at h
        obtain ⟨hnp, hvalid⟩ := (phone_init_ok_iff new np).mp hph
        refine ⟨hvalid, [], ps, by rw [hp, List.nil_append], by simp, ?_⟩
        rw [List.nil_append, ← (Except.ok.injEq _ _).mp h, hnp]
    · rw [if_neg hp] at h
      cases haux : updatePhoneAux old new ps with
      | error e =>
        rw [haux] at h
        exact absurd h (by simp [Except.map])
      | ok l3 =>
        rw [haux] at h
        simp only [Except.map] at h
        obtain ⟨hvalid, pre, post, hps, hpre, hl3⟩ := ih l3 haux
        refine ⟨hvalid, p :: pre, post, by rw [List.cons_append, hps], ?_, ?_⟩
        · intro hm
          rcases List.mem_cons.mp hm with he | hm2
          · exact hp he.symm
          · exact hpre hm2
        · rw [← (Except.ok.injEq _ _).mp h, hl3, List.cons_append]

/-- Claim C5: `update_phone(old, new)` replaces exactly the first phone entry
equal to `old` with a newly validated phone built from `new`, leaving later
duplicates of `old` untouched; if no entry equals `old` it fails with the
PhoneNotFound error (and, the model being functional, no changed record is
produced); if an entry matches but `new` fails validation it fails with the
InvalidPhone error. -/
theorem update_phone_spec (r : Record) (old new : String) :
    (old ∉ r.phones →
      Record.update_phone r old new =
        Except.error (PyExc.valueError ("Phone number " ++ old ++ " not found."))) ∧
    (∀ pre post, r.phones = pre ++ old :: post → old ∉ pre → phoneValid new = true →
      Record.update_phone r old new =
        Except.ok (Record.mk r.name (pre ++ new :: post) r.birthday)) ∧
    (∀ pre post, r.phones = pre ++ old :: post → old ∉ pre → phoneValid new = false →
      Record.update_phone r old new =
        Except.error (PyExc.valueError "Phone number must be 10 digits.")) := by
  refine ⟨?_, ?_, ?_⟩
  · intro h
    unfold Record.update_phone
    rw [updateAux_not_found old new r.phones h]
    rfl
  · intro pre post hsplit hpre hval
    unfold Record.update_phone
    rw [hsplit, updateAux_found old new pre post hpre, phone_init_ok new hval]
    rfl
  · intro pre post hsplit hpre hval
    unfold Record.update_phone
    rw [hsplit, updateAux_found old new pre post hpre, phone_init_err new hval]
    rfl

/-- Witness for claim C5: replacing `"1234567890"` in a record holding that
number twice replaces only the first copy; a missing old number and an
invalid new number produce the respective errors. -/
theorem update_phone_spec_witness :
    Record.update_phone (Record.mk "Alice" ["1234567890", "1234567890"] none)
        "1234567890" "0987654321"
      = Except.ok (Record.mk "Alice" ["0987654321", "1234567890"] none) ∧
    Record.update_phone (Record.mk "Alice" ["1234567890", "1234567890"] none)
        "5555555555" "0987654321"
      = Except.error (PyExc.valueError "Phone number 5555555555 not found.") ∧
    Record.update_phone (Record.mk "Alice" ["1234567890", "1234567890"] none)
        "1234567890" "abc"
      = Except.error (PyExc.valueError "Phone number must be 10 digits.") :=
  ⟨(update_phone_spec (Record.mk "Alice" ["1234567890", "1234567890"] none)
      "1234567890" "0987654321").2.1 [] ["1234567890"] rfl (by simp) (by decide),
   (update_phone_spec (Record.mk "Alice" ["1234567890", "1234567890"] none)
      "5555555555" "0987654321").1 (by decide),
   (update_phone_spec (Record.mk "Alice" ["1234567890", "1234567890"] none)
      "1234567890" "abc").2.2 [] ["1234567890"] rfl (by simp) (by decide)⟩

/-- Unfolding lemma: searching the empty book. -/
theorem search_nil (n : String) : AddressBook.search [] n = none := rfl

/-- Unfolding lemma: searching a nonempty book. -/
theorem search_cons (k : String) (v : Record) (t : AddressBook) (n : String) :
    AddressBook.search ((k, v) :: t) n =
      (if k = n then some v else AddressBook.search t n) := rfl

/-- Unfolding lemma: writing a key into the empty book. -/
theorem setKey_nil (n : String) (r : Record) : setKey [] n r = [(n, r)] := rfl

/-- Unfolding lemma: writing a key into a nonempty book. -/
theorem setKey_cons (k : String) (v : Record) (t : AddressBook) (n : String) (r : Record) :
    setKey ((k, v) :: t) n r =
      (if k = n then (k, r) :: t else (k, v) :: setKey t n r) := rfl

/-- Unfolding lemma: keys of a nonempty book. -/
theorem keys_cons (k : String) (v : Record) (t : AddressBook) :
    keys ((k, v) :: t) = k :: keys t := rfl

/-- Unfolding lemma: key count in a nonempty book. -/
theorem countKey_cons (k : String) (v : Record) (t : AddressBook) (n : String) :
    countKey ((k, v) :: t) n = (if k = n then 1 else 0) + countKey t n := rfl

/-- After writing key `n`, searching `n` finds the written record. -/
theorem search_setKey_self (b : AddressBook) (n : String) (r : Record) :
    AddressBook.search (setKey b n r) n = some r := by
  induction b with
  | nil => rw [setKey_nil, search_cons, if_pos rfl]
  | cons kv t ih =>
    obtain ⟨k, v⟩ := kv
    rw [setKey_cons]
    by_cases hk : k = n
    · rw [if_pos hk, search_cons, if_pos hk]
    · rw [if_neg hk, search_cons, if_neg hk, ih]

/-- Writing key `n` does not change searches for other keys. -/
theorem search_setKey_other (b : AddressBook) (n m : String) (r : Record)
    (h : ¬(n = m)) :
    AddressBook.search (setKey b n r) m = AddressBook.search b m := by
  induction b with
  | nil => rw [setKey_nil, search_cons, if_neg (fun he => h he), search_nil]
  | cons kv t ih =>
    obtain ⟨k, v⟩ := kv
    rw [setKey_cons]
    by_cases hk : k = n
    · have hkm : ¬(k = m) := by
        intro he
        exact h (by rw [← hk]; exact he)
      rw [if_pos hk, search_cons, if_neg hkm, search_cons, if_neg hkm]
    · rw [if_neg hk, search_cons, search_cons]
      by_cases hkm : k = m
      · rw [if_pos hkm, if_pos hkm]
      · rw [if_neg hkm, if_neg hkm, ih]

/-- A successful search means the key is present. -/
theorem mem_keys_of_search (b : AddressBook) (n : String) (r : Record)
    (h : AddressBook.search b n = some r) : n ∈ keys b := by
  induction b with
  | nil => rw [search_nil] at h; exact absurd h (by simp)
  | cons kv t ih =>
    obtain ⟨k, v⟩ := kv
    rw [search_cons] at h
    rw [keys_cons]
    by_cases hk : k = n
    · rw [hk]
      exact List.mem_cons_self n (keys t)
    · rw [if_neg hk] at h
      exact List.mem_cons_of_mem k (ih h)

/-- Writing an already-present key leaves the key list unchanged. -/
theorem keys_setKey_mem (b : AddressBook) (n : String) (r : Record)
    (h : n ∈ keys b) : keys (setKey b n r) = keys b := by
  induction b with
  | nil => exact absurd h (by simp [keys])
  | cons kv t ih =>
    obtain ⟨k, v⟩ := kv
    rw [setKey_cons]
    by_cases hk : k = n
    · rw [if_pos hk, keys_cons, keys_cons]
    · rw [if_neg hk, keys_cons, keys_cons]
      have hn : n ∈ keys t := by
        rw [keys_cons] at h
        rcases List.mem_cons.mp h with he | hm
        · exact absurd he.symm hk
        · exact hm
      rw [ih hn]

/-- Writing an absent key appends it to the key list. -/
theorem keys_setKey_not_mem (b : AddressBook) (n : String) (r : Record)
    (h : n ∉ keys b) : keys (setKey b n r) = keys b ++ [n] := by
  induction b with
  | nil => rfl
  | cons kv t ih =>
    obtain ⟨k, v⟩ := kv
    rw [setKey_cons]
    rw [keys_cons] at h
    by_cases hk : k = n
    · exact absurd (by rw [hk]; exact List.mem_cons_self n (keys t)) h
    · rw [if_neg hk, keys_cons, keys_cons,
        ih (fun hm => h (List.mem_cons_of_mem k hm)), List.cons_append]

/-- Writing a key preserves distinctness of the key list. -/
theorem nodup_keys_setKey (b : AddressBook) (n : String) (r : Record)
    (h : (keys b).Nodup) : (keys (setKey b n r)).Nodup := by
  by_cases hm : n ∈ keys b
  · rw [keys_setKey_mem b n r hm]
    exact h
  · rw [keys_setKey_not_mem b n r hm]
    simp [List.nodup_append, h, hm]

/-- An absent key occurs zero times. -/
theorem countKey_eq_zero (b : AddressBook) (n : String) (h : n ∉ keys b) :
    countKey b n = 0 := by
  induction b with
  | nil => rfl
  | cons kv t ih =>
    obtain ⟨k, v⟩ := kv
    rw [keys_cons] at h
    have hk : ¬(k = n) := by
      intro he
      exact h (by rw [← he]; exact List.mem_cons_self k (keys t))
    rw [countKey_cons, if_neg hk, ih (fun hm => h (List.mem_cons_of_mem k hm))]

/-- In a book with distinct keys, a written key occurs exactly once. -/
theorem countKey_setKey (b : AddressBook) (n : String) (r : Record)
    (h : (keys b).Nodup) : countKey (setKey b n r) n = 1 := by
  induction b with
  | nil => rw [setKey_nil, countKey_cons, if_pos rfl]; rfl
  | cons kv t ih =>
    obtain ⟨k, v⟩ := kv
    rw [keys_cons, List.nodup_cons] at h
    rw [setKey_cons]
    by_cases hk : k = n
    · rw [if_pos hk, countKey_cons, if_pos hk,
        countKey_eq_zero t n (by rw [← hk]; exact h.1)]
    · rw [if_neg hk, countKey_cons, if_neg hk, ih h.2]

/-- Claim C6: `add_record` keys the record by its name and overwrites
(last-write-wins): after adding `r1` the book maps `r1`'s name to `r1`; after
adding `r2` with the same name the book maps that name to exactly `r2`, holds
exactly one entry under it, leaves every other name's search result unchanged
and leaves the key list unchanged. -/
theorem add_record_overwrites (b : AddressBook) (r1 r2 : Record)
    (hname : r2.name = r1.name) (hnodup : (keys b).Nodup) :
    (AddressBook.search (AddressBook.add_record b r1) r1.name = some r1) ∧
    (AddressBook.search (AddressBook.add_record (AddressBook.add_record b r1) r2) r1.name
      = some r2) ∧
    (countKey (AddressBook.add_record (AddressBook.add_record b r1) r2) r1.name = 1) ∧
    (∀ n, ¬(n = r1.name) →
      AddressBook.search (AddressBook.add_record (AddressBook.add_record b r1) r2) n
        = AddressBook.search b n) ∧
    (keys (AddressBook.add_record (AddressBook.add_record b r1) r2)
      = keys (AddressBook.add_record b r1)) := by
  unfold AddressBook.add_record
  rw [hname]
  refine ⟨search_setKey_self b r1.name r1, search_setKey_self _ r1.name r2, ?_, ?_, ?_⟩
  · exact countKey_setKey _ r1.name r2 (nodup_keys_setKey b r1.name r1 hnodup)
  · intro n hn
    rw [search_setKey_other _ r1.name n r2 (fun he => hn he.symm),
      search_setKey_other b r1.name n r1 (fun he => hn he.symm)]
  · exact keys_setKey_mem _ r1.name r2
      (mem_keys_of_search _ r1.name r1 (search_setKey_self b r1.name r1))

/-- Witness for claim C6 on a concrete book: adding two records named "Bob"
leaves a single "Bob" entry holding the second record. -/
theorem add_record_overwrites_witness :
    AddressBook.search
        (AddressBook.add_record
          (AddressBook.add_record [("X", Record.init "X")] (Record.mk "Bob" ["1234567890"] none))
          (Record.mk "Bob" ["0987654321"] none)) "Bob"
      = some (Record.mk "Bob" ["0987654321"] none) ∧
    countKey
        (AddressBook.add_record
          (AddressBook.add_record [("X", Record.init "X")] (Record.mk "Bob" ["1234567890"] none))
          (Record.mk "Bob" ["0987654321"] none)) "Bob" = 1 :=
  ⟨(add_record_overwrites [("X", Record.init "X")] (Record.mk "Bob" ["1234567890"] none)
      (Record.mk "Bob" ["0987654321"] none) rfl (by decide)).2.1,
   (add_record_overwrites [("X", Record.init "X")] (Record.mk "Bob" ["1234567890"] none)
      (Record.mk "Bob" ["0987654321"] none) rfl (by decide)).2.2.1⟩

/-- `Record.add_phone` with a valid phone appends it. -/
theorem add_phone_ok (r : Record) (p : String) (h : phoneValid p = true) :
    Record.add_phone r p = Except.ok (Record.mk r.name (r.phones ++ [p]) r.birthday) := by
  unfold Record.add_phone
  rw [phone_init_ok p h]
  rfl

/-- Claim C10: the `add` handler on a name already present appends the valid
phone to the existing record and changes nothing else: the resulting record
keeps its name, its previous phones in order and its birthday; every other
name's search result is unchanged; the key list is unchanged. -/
theorem add_contact_existing (b : AddressBook) (name phone : String)
    (rest : List String) (r : Record)
    (hfound : AddressBook.search b name = some r) (hvalid : phoneValid phone = true) :
    (add_contact (name :: phone :: rest) b).1 = "Phone added to " ++ name ++ "." ∧
    AddressBook.search (add_contact (name :: phone :: rest) b).2 name
      = some (Record.mk r.name (r.phones ++ [phone]) r.birthday) ∧
    (∀ n, ¬(n = name) →
      AddressBook.search (add_contact (name :: phone :: rest) b).2 n
        = AddressBook.search b n) ∧
    keys (add_contact (name :: phone :: rest) b).2 = keys b := by
  have hstep : add_contact (name :: phone :: rest) b =
      ("Phone added to " ++ name ++ ".",
        setKey b name (Record.mk r.name (r.phones ++ [phone]) r.birthday)) := by
    unfold add_contact
    simp only [hfound, add_phone_ok r phone hvalid]
  rw [hstep]
  refine ⟨rfl, search_setKey_self b name _, ?_, ?_⟩
  · intro n hn
    exact search_setKey_other b name n _ (fun he => hn he.symm)
  · exact keys_setKey_mem b name _ (mem_keys_of_search b name r hfound)

/-- Witness for claim C10 on a concrete book: adding a second phone to the
existing "Bob" keeps the first phone, the birthday, and the "X" entry. -/
theorem add_contact_existing_witness :
    AddressBook.search
        (add_contact ["Bob", "0987654321"]
          [("Bob", Record.mk "Bob" ["1234567890"] (some "20.05.1990")),
           ("X", Record.init "X")]).2 "Bob"
      = some (Record.mk "Bob" ["1234567890", "0987654321"] (some "20.05.1990")) ∧
    AddressBook.search
        (add_contact ["Bob", "0987654321"]
          [("Bob", Record.mk "Bob" ["1234567890"] (some "20.05.1990")),
           ("X", Record.init "X")]).2 "X"
      = some (Record.init "X") :=
  ⟨(add_contact_existing
      [("Bob", Record.mk "Bob" ["1234567890"] (some "20.05.1990")), ("X", Record.init "X")]
      "Bob" "0987654321" [] (Record.mk "Bob" ["1234567890"] (some "20.05.1990"))
      (by decide) (by decide)).2.1,
   ((add_contact_existing
      [("Bob", Record.mk "Bob" ["1234567890"] (some "20.05.1990")), ("X", Record.init "X")]
      "Bob" "0987654321" [] (Record.mk "Bob" ["1234567890"] (some "20.05.1990"))
      (by decide) (by decide)).2.2.1 "X" (by decide)).trans (by decide)⟩

/-- Unfolding lemma: a book consisting of one entry is valid iff the record
is. -/
theorem validBook_cons (k : String) (v : Record) (t : AddressBook) :
    validBook ((k, v) :: t) = (validRecord v && validBook t) := rfl

/-- Unfolding lemma for `validRecord` on a literal record. -/
theorem validRecord_mk (n : String) (ps : List String) (bo : Option String) :
    validRecord (Record.mk n ps bo) = (ps.all phoneValid && birthdayOk bo) := rfl

/-- Writing a valid record into a valid book keeps the book valid. -/
theorem validBook_setKey (b : AddressBook) (n : String) (r : Record)
    (hb : validBook b = true) (hr : validRecord r = true) :
    validBook (setKey b n r) = true := by
  induction b with
  | nil =>
    rw [setKey_nil, validBook_cons, hr]
    rfl
  | cons kv t ih =>
    obtain ⟨k, v⟩ := kv
    rw [validBook_cons, Bool.and_eq_true] at hb
    rw [setKey_cons]
    by_cases hk : k = n
    · rw [if_pos hk, validBook_cons, hr, hb.2]
      rfl
    · rw [if_neg hk, validBook_cons, hb.1, ih hb.2]
      rfl

/-- Removing a key from a valid book keeps the book valid. -/
theorem validBook_removeKey (b : AddressBook) (n : String)
    (hb : validBook b = true) : validBook (removeKey b n) = true := by
  induction b with
  | nil => rfl
  | cons kv t ih =>
    obtain ⟨k, v⟩ := kv
    rw [validBook_cons, Bool.and_eq_true] at hb
    rw [show removeKey ((k, v) :: t) n
        = (if k = n then t else (k, v) :: removeKey t n) from rfl]
    by_cases hk : k = n
    · rw [if_pos hk]
      exact hb.2
    · rw [if_neg hk, validBook_cons, hb.1, ih hb.2]
      rfl

/-- Claim C8: every mutating operation preserves the validation invariant —
in a valid record or book, every stored phone passes the 10-digit check and
every stored birthday parses, and `add_phone`, `update_phone`, `delete_phone`,
`set_birthday`, `add_record` and `remove_record` keep it that way; a failed
validation produces an error and no new state, so no partially-valid value is
ever observable. -/
theorem record_book_invariant :
    (∀ r : Record, validRecord r = true →
      (∀ p r2, Record.add_phone r p = Except.ok r2 → validRecord r2 = true) ∧
      (∀ old new r2, Record.update_phone r old new = Except.ok r2 → validRecord r2 = true) ∧
      (∀ p, validRecord (Record.delete_phone r p) = true) ∧
      (∀ bs r2, Record.set_birthday r bs = Except.ok r2 → validRecord r2 = true)) ∧
    (∀ b : AddressBook, validBook b = true →
      (∀ r, validRecord r = true → validBook (AddressBook.add_record b r) = true) ∧
      (∀ n, validBook (AddressBook.remove_record b n).2 = true)) := by
  constructor
  · intro r hr
    rw [show validRecord r = (r.phones.all phoneValid && birthdayOk r.birthday) from rfl,
      Bool.and_eq_true] at hr
    refine ⟨?_, ?_, ?_, ?_⟩
    · intro p r2 h
      unfold Record.add_phone at h
      cases hp : Phone.init p with
      | error e =>
        rw [hp] at h
        exact absurd h (by simp [Except.map])
      | ok v =>
        rw [hp] at h
        simp only [Except.map] at h
        obtain ⟨hv, hval⟩ := (phone_init_ok_iff p v).mp hp
        rw [← (Except.ok.injEq _ _).mp h, validRecord_mk, Bool.and_eq_true]
        refine ⟨?_, hr.2⟩
        rw [List.all_append, hr.1,
          show ([v].all phoneValid) = (phoneValid v && true) from rfl, hv, hval]
        rfl
    · intro old new r2 h
      unfold Record.update_phone at h
      cases haux : updatePhoneAux old new r.phones with
      | error e =>
        rw [haux] at h
        exact absurd h (by simp [Except.map])
      | ok l2 =>
        rw [haux] at h
        simp only [Except.map] at h
        obtain ⟨hvnew, pre, post, hsplit, hpre, hl2⟩ :=
          updateAux_ok_shape old new r.phones l2 haux
        rw [← (Except.ok.injEq _ _).mp h, validRecord_mk, Bool.and_eq_true]
        refine ⟨?_, hr.2⟩
        rw [List.all_eq_true]
        intro x hx
        have hall := List.all_eq_true.mp hr.1
        rw [hl2] at hx
        rcases List.mem_append.mp hx with hx1 | hx2
        · exact hall x (by rw [hsplit]; exact List.mem_append.mpr (Or.inl hx1))
        · rcases List.mem_cons.mp hx2 with he | hx3
          · rw [he]
            exact hvnew
          · exact hall x (by
              rw [hsplit]
              exact List.mem_append.mpr (Or.inr (List.mem_cons_of_mem old hx3)))
    · intro p
      unfold Record.delete_phone
      rw [validRecord_mk, Bool.and_eq_true]
      refine ⟨?_, hr.2⟩
      rw [List.all_eq_true]
      intro x hx
      exact List.all_eq_true.mp hr.1 x (List.mem_of_mem_filter hx)
    · intro bs r2 h
      unfold Record.set_birthday at h
      cases hb : Birthday.init bs with
      | error e =>
        rw [hb] at h
        exact absurd h (by simp [Except.map])
      | ok v =>
        rw [hb] at h
        simp only [Except.map] at h
        obtain ⟨hv, hsome⟩ := (birthday_init_ok_iff bs v).mp hb
        rw [← (Except.ok.injEq _ _).mp h, validRecord_mk, Bool.and_eq_true]
        refine ⟨hr.1, ?_⟩
        rw [hv, show birthdayOk (some bs) = (strptimeDMY bs).isSome from rfl]
        exact hsome
  · intro b hb
    constructor
    · intro r hr
      unfold AddressBook.add_record
      exact validBook_setKey b r.name r hb hr
    · intro n
      exact validBook_removeKey b n hb

/-- Witness for claim C8: applying the preserved-invariant theorem to a
concrete valid record and book. -/
theorem record_book_invariant_witness :
    validRecord
      (Record.delete_phone (Record.mk "A" ["1234567890"] none) "1234567890") = true ∧
    validBook
      (AddressBook.remove_record [("A", Record.mk "A" ["1234567890"] none)] "A").2 = true :=
  ⟨(record_book_invariant.1 (Record.mk "A" ["1234567890"] none) (by decide)).2.2.1
      "1234567890",
   (record_book_invariant.2 [("A", Record.mk "A" ["1234567890"] none)] (by decide)).2 "A"⟩

/-- Claim C7 counterexample: with corrupt (or unreadable) store contents,
`load_data` does not return an empty Directory — the `except` clause catches
only `FileNotFoundError`, so the exception propagates. -/
theorem load_data_corrupt_cex :
    load_data StoreState.corrupt = Except.error PyExc.unpicklingError ∧
      load_data StoreState.unreadable = Except.error PyExc.permissionError :=
  ⟨rfl, rfl⟩

/-- Claim C7 (amended): `load_data` returns a fresh empty Directory exactly
when the file is absent (`FileNotFoundError` is caught) and returns the saved
Directory when one is stored, but it raises on an unreadable or corrupt store
(the exception propagates uncaught). -/
theorem load_data_spec :
    load_data StoreState.absent = Except.ok [] ∧
    (∀ b : AddressBook, load_data (StoreState.saved b) = Except.ok b) ∧
    load_data StoreState.corrupt = Except.error PyExc.unpicklingError ∧
    load_data StoreState.unreadable = Except.error PyExc.permissionError :=
  ⟨rfl, fun _ => rfl, rfl, rfl⟩

/-- Claim C9: `upcoming_birthdays` is not total — with a stored birthday
`29.02.2024` and a non-leap "today" (here 2023-03-01), re-anchoring via
`replace(year=...)` raises `ValueError: day is out of range for month`
instead of returning a list, and the `birthdays` handler renders the
`"Error: ..."` message produced by the `input_error` wrapper. -/
theorem upcoming_birthdays_leap_raises :
    AddressBook.upcoming_birthdays
        [("Leap", Record.mk "Leap" [] (some "29.02.2024"))] (Date.mk 2023 3 1)
      = Except.error (PyExc.valueError "day is out of range for month") ∧
    birthdays [("Leap", Record.mk "Leap" [] (some "29.02.2024"))] (Date.mk 2023 3 1)
      = "Error: day is out of range for month" := by
  constructor
  · rfl
  · rfl

/-- Unfolding lemma for one loop step of `upcoming_birthdays`. -/
theorem upcomingAux_cons (today : Date) (n : String) (r : Record)
    (t : List (String × Record)) :
    upcomingAux today ((n, r) :: t) =
      (match r.birthday with
       | none => upcomingAux today t
       | some bs =>
         match strptimeDMY bs with
         | none => Except.error (PyExc.valueError
             ("time data " ++ bs ++ " does not match format %d.%m.%Y"))
         | some bd =>
           match replaceYear bd today.year with
           | Except.error e => Except.error e
           | Except.ok anch =>
             if inWindow today anch then
               match upcomingAux today t with
               | Except.ok l => Except.ok ((n, formatDMY (reportDate anch)) :: l)
               | Except.error e => Except.error e
             else upcomingAux today t) := rfl

/-- Unfolding lemma for `includeEntry` on a literal pair. -/
theorem includeEntry_pair (today : Date) (n : String) (r : Record) :
    includeEntry today (n, r) =
      (match r.birthday with
       | none => none
       | some bs =>
         match strptimeDMY bs with
         | none => none
         | some bd =>
           match replaceYear bd today.year with
           | Except.error _ => none
           | Except.ok anch =>
             if inWindow today anch then some (n, formatDMY (reportDate anch))
             else none) := rfl

/-- A successful `upcoming_birthdays` loop is the `filterMap` of its
per-entry contribution. -/
theorem upcomingAux_ok_eq (today : Date) (t : List (String × Record)) :
    ∀ l, upcomingAux today t = Except.ok l → l = t.filterMap (includeEntry today) := by
  induction t with
  | nil =>
    intro l h
    rw [show upcomingAux today [] = Except.ok [] from rfl] at h
    rw [List.filterMap_nil]
    exact ((Except.ok.injEq _ _).mp h).symm
  | cons p t ih =>
    intro l h
    obtain ⟨n, r⟩ := p
    rw [upcomingAux_cons] at h
    rw [List.filterMap_cons]
    cases hb : r.birthday with
    | none =>
      simp only [hb] at h
      rw [show includeEntry today (n, r) = none from by
        rw [includeEntry_pair, hb]]
      exact ih l h
    | some bs =>
      simp only [hb] at h
      cases hp : strptimeDMY bs with
      | none =>
        simp only [hp] at h
        exact absurd h (by simp)
      | some bd =>
        simp only [hp] at h
        cases hrep : replaceYear bd today.year with
        | error e =>
          simp only [hrep] at h
          exact absurd h (by simp)
        | ok anch =>
          simp only [hrep] at h
          by_cases hw : inWindow today anch = true
          · rw [if_pos hw] at h
            cases haux : upcomingAux today t with
            | error e =>
              rw [haux] at h
              exact absurd h (by simp)
            | ok l0 =>
              rw [haux] at h
              rw [show includeEntry today (n, r)
                  = some (n, formatDMY (reportDate anch)) from by
                simp [includeEntry_pair, hb, hp, hrep, hw]]
              rw [← (Except.ok.injEq _ _).mp h, ih l0 haux]
          · rw [if_neg hw] at h
            rw [show includeEntry today (n, r) = none from by
              simp [includeEntry_pair, hb, hp, hrep, hw]]
            exact ih l h

/-- The contributed pair keeps the entry's name. -/
theorem includeEntry_some_fst (today : Date) (n : String) (r : Record)
    (q : String × String) (h : includeEntry today (n, r) = some q) : q.1 = n := by
  rw [includeEntry_pair] at h
  cases hb : r.birthday with
  | none =>
    simp only [hb] at h
    exact absurd h (by simp)
  | some bs =>
    simp only [hb] at h
    cases hp : strptimeDMY bs with
    | none =>
      simp only [hp] at h
      exact absurd h (by simp)
    | some bd =>
      simp only [hp] at h
      cases hrep : replaceYear bd today.year with
      | error e =>
        simp only [hrep] at h
        exact absurd h (by simp)
      | ok anch =>
        simp only [hrep] at h
        by_cases hw : inWindow today anch = true
        · rw [if_pos hw] at h
          rw [← (Option.some.injEq _ _).mp h]
        · rw [if_neg hw] at h
          exact absurd h (by simp)

/-- Full characterization of the per-entry contribution. -/
theorem includeEntry_eq_some_iff (today : Date) (n : String) (r : Record)
    (q : String × String) :
    includeEntry today (n, r) = some q ↔
      (∃ bs bd anch, r.birthday = some bs ∧ strptimeDMY bs = some bd ∧
        replaceYear bd today.year = Except.ok anch ∧ inWindow today anch = true ∧
        q = (n, formatDMY (reportDate anch))) := by
  cases hb : r.birthday with
  | none =>
    rw [includeEntry_pair]
    simp [hb]
  | some bs =>
    cases hp : strptimeDMY bs with
    | none =>
      rw [includeEntry_pair]
      simp [hb, hp]
    | some bd =>
      cases hrep : replaceYear bd today.year with
      | error e =>
        rw [includeEntry_pair]
        simp [hb, hp, hrep]
      | ok anch =>
        by_cases hw : inWindow today anch = true
        · rw [includeEntry_pair]
          simp only [hb, hp, hrep]
          rw [if_pos hw]
          constructor
          · intro h2
            exact ⟨bs, bd, anch, rfl, hp, hrep, hw,
              ((Option.some.injEq _ _).mp h2).symm⟩
          · rintro ⟨bs2, bd2, anch2, he1, he2, he3, hw2, he4⟩
            have hb2 : bs2 = bs := ((Option.some.injEq _ _).mp he1).symm
            rw [hb2] at he2
            have hd2 : bd2 = bd := ((Option.some.injEq _ _).mp (hp.symm.trans he2)).symm
            rw [hd2] at he3
            have ha2 : anch2 = anch := ((Except.ok.injEq _ _).mp (hrep.symm.trans he3)).symm
            rw [he4, ha2]
        · rw [includeEntry_pair]
          simp only [hb, hp, hrep]
          rw [if_neg hw]
          constructor
          · intro h2
            exact absurd h2 (by simp)
          · rintro ⟨bs2, bd2, anch2, he1, he2, he3, hw2, he4⟩
            have hb2 : bs2 = bs := ((Option.some.injEq _ _).mp he1).symm
            rw [hb2] at he2
            have hd2 : bd2 = bd := ((Option.some.injEq _ _).mp (hp.symm.trans he2)).symm
            rw [hd2] at he3
            have ha2 : anch2 = anch := ((Except.ok.injEq _ _).mp (hrep.symm.trans he3)).symm
            rw [ha2] at hw2
            exact absurd hw2 hw

/-- In a book with distinct keys, membership under a key is unique. -/
theorem keys_nodup_unique (b : AddressBook) (n : String) (x y : Record)
    (h : (keys b).Nodup) (hx : (n, x) ∈ b) (hy : (n, y) ∈ b) : x = y := by
  induction b with
  | nil => exact absurd hx (by simp)
  | cons kv t ih =>
    obtain ⟨k, v⟩ := kv
    rw [keys_cons, List.nodup_cons] at h
    have hmemk : ∀ z : Record, (n, z) ∈ t → n ∈ keys t := by
      intro z hz
      exact List.mem_map_of_mem Prod.fst hz
    rcases List.mem_cons.mp hx with hex | hx2 <;> rcases List.mem_cons.mp hy with hey | hy2
    · have h1 := hex
      have h2 := hey
      rw [Prod.mk.injEq] at h1 h2
      rw [h1.2, h2.2]
    · have h1 := hex
      rw [Prod.mk.injEq] at h1
      exact absurd (by rw [← h1.1]; exact hmemk y hy2) h.1
    · have h2 := hey
      rw [Prod.mk.injEq] at h2
      exact absurd (by rw [← h2.1]; exact hmemk x hx2) h.1
    · exact ih h.2 hx2 hy2

/-- The window test, at the proposition level. -/
theorem inWindow_iff (today anch : Date) :
    inWindow today anch = true ↔
      (toOrdinal today ≤ toOrdinal anch ∧ toOrdinal anch ≤ toOrdinal today + 7) := by
  unfold inWindow
  rw [Bool.and_eq_true]
  simp

/-- Claim C1: when `upcoming_birthdays` returns a list, a record of the book
is reported iff its birthday is set and the birthday re-anchored to today's
year lies between today and today plus seven days, both ends included,
comparing calendar dates only; in particular an anchored date strictly before
today is excluded (no next-year rollover) and records without a birthday never
appear. -/
theorem upcoming_birthdays_window (b : AddressBook) (today : Date)
    (l : List (String × String)) (name : String) (r : Record)
    (hok : AddressBook.upcoming_birthdays b today = Except.ok l)
    (hnodup : (keys b).Nodup) (hmem : (name, r) ∈ b) :
    (∃ s, (name, s) ∈ l) ↔
      (∃ bs bd anch, r.birthday = some bs ∧ strptimeDMY bs = some bd ∧
        replaceYear bd today.year = Except.ok anch ∧
        (toOrdinal today ≤ toOrdinal anch ∧ toOrdinal anch ≤ toOrdinal today + 7)) := by
  have hl : l = b.filterMap (includeEntry today) := upcomingAux_ok_eq today b l hok
  constructor
  · rintro ⟨s, hs⟩
    rw [hl] at hs
    obtain ⟨p, hpmem, hpeq⟩ := List.mem_filterMap.mp hs
    obtain ⟨pn, pr⟩ := p
    have hfst : name = pn := includeEntry_some_fst today pn pr (name, s) hpeq
    rw [← hfst] at hpmem hpeq
    have hpr : pr = r := keys_nodup_unique b name pr r hnodup hpmem hmem
    rw [hpr] at hpeq
    obtain ⟨bs, bd, anch, hbb, hpp, hrep, hw, _⟩ :=
      (includeEntry_eq_some_iff today name r (name, s)).mp hpeq
    exact ⟨bs, bd, anch, hbb, hpp, hrep, (inWindow_iff today anch).mp hw⟩
  · rintro ⟨bs, bd, anch, hbb, hpp, hrep, hwin⟩
    have hinc : includeEntry today (name, r) = some (name, formatDMY (reportDate anch)) :=
      (includeEntry_eq_some_iff today name r (name, formatDMY (reportDate anch))).mpr
        ⟨bs, bd, anch, hbb, hpp, hrep, (inWindow_iff today anch).mpr hwin, rfl⟩
    refine ⟨formatDMY (reportDate anch), ?_⟩
    rw [hl]
    exact List.mem_filterMap.mpr ⟨(name, r), hmem, hinc⟩

/-- Witness for claim C1, the spec's own scenario: birthday 20.05 anchored to
2024 with today = 18.05.2024 falls in the window, so "Bob" is reported. -/
theorem upcoming_birthdays_window_witness :
    (∃ s, ("Bob", s) ∈ [("Bob", "20.05.2024")]) ↔
      (∃ bs bd anch,
        (Record.mk "Bob" [] (some "20.05.2024")).birthday = some bs ∧
        strptimeDMY bs = some bd ∧
        replaceYear bd (Date.mk 2024 5 18).year = Except.ok anch ∧
        (toOrdinal (Date.mk 2024 5 18) ≤ toOrdinal anch ∧
          toOrdinal anch ≤ toOrdinal (Date.mk 2024 5 18) + 7)) :=
  upcoming_birthdays_window [("Bob", Record.mk "Bob" [] (some "20.05.2024"))]
    (Date.mk 2024 5 18) [("Bob", "20.05.2024")] "Bob"
    (Record.mk "Bob" [] (some "20.05.2024")) (by rfl) (by decide) (by decide)

/-- Claim C2: every reported pair carries the anchored date shifted forward by
`7 - weekday` days when the anchored date's weekday index is 5 or 6 (Saturday
or Sunday, Monday = 0) — with no re-check that the shifted date still lies in
the window — and the unshifted anchored date otherwise, formatted DD.MM.YYYY. -/
theorem upcoming_birthdays_weekend_shift (b : AddressBook) (today : Date)
    (l : List (String × String)) (name rep : String) (r : Record)
    (hok : AddressBook.upcoming_birthdays b today = Except.ok l)
    (hnodup : (keys b).Nodup) (hmem : (name, r) ∈ b) (hrep : (name, rep) ∈ l) :
    ∃ bs bd anch, r.birthday = some bs ∧ strptimeDMY bs = some bd ∧
      replaceYear bd today.year = Except.ok anch ∧ inWindow today anch = true ∧
      rep = (if 5 ≤ weekday anch then formatDMY (addDays anch (7 - weekday anch))
             else formatDMY anch) := by
  have hl : l = b.filterMap (includeEntry today) := upcomingAux_ok_eq today b l hok
  rw [hl] at hrep
  obtain ⟨p, hpmem, hpeq⟩ := List.mem_filterMap.mp hrep
  obtain ⟨pn, pr⟩ := p
  have hfst : name = pn := includeEntry_some_fst today pn pr (name, rep) hpeq
  rw [← hfst] at hpmem hpeq
  have hpr : pr = r := keys_nodup_unique b name pr r hnodup hpmem hmem
  rw [hpr] at hpeq
  obtain ⟨bs, bd, anch, hbb, hpp, hrp, hw, hq⟩ :=
    (includeEntry_eq_some_iff today name r (name, rep)).mp hpeq
  refine ⟨bs, bd, anch, hbb, hpp, hrp, hw, ?_⟩
  have hrep2 : rep = formatDMY (reportDate anch) := by
    have := hq
    rw [Prod.mk.injEq] at this
    exact this.2
  rw [hrep2]
  unfold reportDate
  by_cases hwk : 5 ≤ weekday anch
  · rw [if_pos hwk, if_pos hwk]
  · rw [if_neg hwk, if_neg hwk]

/-- Witness for claim C2: with today = 18.05.2024 (a Saturday) and birthday
25.05, the anchored date 25.05.2024 is the Saturday at the very end of the
window; the shift reports 27.05.2024, the Monday two days past today + 7,
with no re-check. -/
theorem upcoming_birthdays_weekend_shift_witness :
    ∃ bs bd anch,
      (Record.mk "Bob" [] (some "25.05.1990")).birthday = some bs ∧
      strptimeDMY bs = some bd ∧
      replaceYear bd (Date.mk 2024 5 18).year = Except.ok anch ∧
      inWindow (Date.mk 2024 5 18) anch = true ∧
      "27.05.2024" = (if 5 ≤ weekday anch
        then formatDMY (addDays anch (7 - weekday anch)) else formatDMY anch) :=
  upcoming_birthdays_weekend_shift [("Bob", Record.mk "Bob" [] (some "25.05.1990"))]
    (Date.mk 2024 5 18) [("Bob", "27.05.2024")] "Bob" "27.05.2024"
    (Record.mk "Bob" [] (some "25.05.1990")) (by rfl) (by decide) (by decide)
    (by decide)

end AB
